import Mathlib

/-!
Verification of the scrobble-client core of the multi-scrobbler repository.

The development shallowly embeds the parts of
`src/backend/scrobblers/AbstractScrobbleClient.ts` (fuzzy existing-scrobble
detection, worker queue processing, dead-letter queue) and of
`SpotifySource.formatPlayObj` that the verified properties are about.

Conventions of the embedding:
* JavaScript numbers that carry fractional scores are modelled as `ℚ`.
* `dayjs` timestamps are modelled as `Int` (unix seconds); `a.isAfter b`
  becomes `b < a`.
* Fallible adapter calls are modelled as `Except` values supplied by an
  oracle, since `doScrobble` / `alreadyScrobbled` are abstract methods of
  the class.
* String-similarity helpers that live outside the provided sources are kept
  abstract (oracle functions) or are modelled from the spec, each such
  definition carrying a doc comment starting with `Modelled from the spec:`.
-/

/-- A play's `data` sub-record, with the fields the verified code reads. -/
structure PlayData where
  track : String := ""
  artists : List String := []
  albumArtists : List String := []
  album : Option String := none
  duration : Option ℚ := none
  playDate : Int := 0
deriving DecidableEq, Repr

/-- A play object (the `meta` sub-record is irrelevant to the verified code
paths, so only `data` is carried). -/
structure PlayObject where
  data : PlayData := {}
deriving DecidableEq, Repr

/-- An entry of `scrobbledPlayObjs`: the play submitted and the upstream
response recorded for it. -/
structure ScrobbledPlayObject where
  play : PlayObject
  scrobble : PlayObject
deriving DecidableEq, Repr

/-- An entry of `queuedScrobbles`. -/
structure QueuedScrobble where
  id : String
  source : String
  play : PlayObject
deriving DecidableEq, Repr

/-- An entry of `deadLetterScrobbles`. -/
structure DeadLetterScrobble where
  id : String
  source : String
  play : PlayObject
  retries : Nat
  error : String
  lastRetry : Option Int := none
deriving DecidableEq, Repr

/-- The mutable fields of `AbstractScrobbleClient` that the verified methods
read or write. -/
structure ClientState where
  checkExistingScrobbles : Bool := true
  oldestScrobbleTime : Option Int := none
  recentScrobbles : List PlayObject := []
  scrobbledPlayObjs : List ScrobbledPlayObject := []
  queuedScrobbles : List QueuedScrobble := []
  deadLetterScrobbles : List DeadLetterScrobble := []
  tracksScrobbled : Nat := 0
deriving DecidableEq, Repr

/-- Modelled from the spec: the comparator weight constants, with the
spec's reference values `ARTIST_WEIGHT = 0.3`; the constants themselves live
in `common/infrastructure/Atomic.ts`, which is not among the provided
sources. -/
def ARTIST_WEIGHT : ℚ := 3/10

/-- Modelled from the spec: reference value `TITLE_WEIGHT = 0.4`. -/
def TITLE_WEIGHT : ℚ := 2/5

/-- Modelled from the spec: reference value `TIME_WEIGHT = 0.3`. -/
def TIME_WEIGHT : ℚ := 3/10

/-- Modelled from the spec: reference value `DUP_SCORE_THRESHOLD = 0.8`. -/
def DUP_SCORE_THRESHOLD : ℚ := 4/5

/-- Modelled from the spec: the discrete temporal-accuracy levels produced
by `comparePlayTemporally` (defined in `utils/TimeUtils.ts`, not among the
provided sources). -/
inductive TemporalAccuracy where
  | EXACT
  | CLOSE
  | FUZZY
  | NOMATCH
deriving DecidableEq, Repr

/-- Numeric rank of a temporal accuracy level, tighter is larger. -/
def TemporalAccuracy.rank : TemporalAccuracy → Nat
  | .EXACT => 3
  | .CLOSE => 2
  | .FUZZY => 1
  | .NOMATCH => 0

/-- Modelled from the spec: `temporalAccuracyIsAtLeast level m` holds when
`m` is at least as accurate as `level` (so `EXACT` and `CLOSE` are both at
least `CLOSE`); the original lives in `utils/TimeUtils.ts`, not among the
provided sources. -/
def temporalAccuracyIsAtLeast (level m : TemporalAccuracy) : Bool :=
  level.rank ≤ m.rank

/-- Modelled from the spec: `comparePlayTemporally` maps the distance between
the two play dates to a discrete accuracy: equality is `EXACT`, a small
tolerance (documented default 10 s here) is `CLOSE`, a larger tolerance
(documented default 60 s here) is `FUZZY`, anything farther is no match.
The tolerances are the spec's tunable constants. -/
def comparePlayTemporally (a b : PlayObject) : TemporalAccuracy :=
  let d := (a.data.playDate - b.data.playDate).natAbs
  if d = 0 then .EXACT
  else if d ≤ 10 then .CLOSE
  else if d ≤ 60 then .FUZZY
  else .NOMATCH

/-- The time subscore computed inside `existingScrobble`
(`AbstractScrobbleClient.ts` lines 338-344): `1` when the temporal
comparison is at least `CLOSE`, `0.6` when it is `FUZZY`, else `0`. -/
def timeMatchScore (m : TemporalAccuracy) : ℚ :=
  if temporalAccuracyIsAtLeast .CLOSE m then 1
  else if m = .FUZZY then 3/5
  else 0

/-- Modelled from the spec: `comparingMultipleArtists` (from `utils.ts`, not
among the provided sources) holds when both plays carry more than one
artist. -/
def comparingMultipleArtists (a b : PlayObject) : Bool :=
  decide (1 < a.data.artists.length) && decide (1 < b.data.artists.length)

/-- The per-candidate weighted score computed inside `existingScrobble`
(`AbstractScrobbleClient.ts` lines 350-379), as a function of the three
subscores, the whole-artist match count and the multiple-artists flag:
the plain weighted sum, recomputed with the multi-artist whole-match bonus
when the bonus conditions all hold. -/
def scoreCandidate (timeMatch titleMatch artistMatch : ℚ) (wholeMatches : Nat)
    (multipleArtists : Bool) : ℚ :=
  let artistScore := ARTIST_WEIGHT * artistMatch
  let titleScore := TITLE_WEIGHT * titleMatch
  let timeScore := TIME_WEIGHT * timeMatch
  let score := artistScore + titleScore + timeScore
  if score < 1 ∧ 0 < timeMatch ∧ 49/50 < titleMatch ∧ 1/10 < artistMatch
      ∧ 0 < wholeMatches ∧ multipleArtists = true then
    let scoreBonus := artistMatch * (1/2)
    let scoreGapBonus := (1 - artistMatch) * (3/4)
    let artistWholeMatchBonus := max (max scoreBonus scoreGapBonus) (1/10)
    (ARTIST_WEIGHT + 1/20) * (artistMatch + artistWholeMatchBonus) + titleScore + timeScore
  else
    score

/-- `timeFrameIsValid` (`AbstractScrobbleClient.ts` lines 208-226): a play is
valid when no oldest upstream scrobble time is known, or when its play date
is strictly after that time; the second component is the log string (the
humanized-duration text of the source is abbreviated to a fixed message). -/
def timeFrameIsValid (st : ClientState) (playObj : PlayObject) : Bool × String :=
  match st.oldestScrobbleTime with
  | none => (true, "")
  | some oldest =>
    let validTime := decide (oldest < playObj.data.playDate)
    let log := if validTime then ""
      else "occurred before the oldest scrobble returned by this client"
    (validTime, log)

/-- The string-similarity helpers consulted by `existingScrobble`
(`compareScrobbleTracks`, `compareScrobbleArtists`, `normalizeStr` from
`utils/StringUtils.ts`, and `comparePlayTemporally` from
`utils/TimeUtils.ts`, none of which are among the provided sources), kept
abstract as an oracle record.  `trackHighScore` and `artistScoreRaw` are the
0-100 similarity scores the source divides by 100. -/
structure CompareOracles where
  trackHighScore : PlayObject → PlayObject → ℚ
  artistScoreRaw : PlayObject → PlayObject → ℚ
  normalize : String → String
  temporal : PlayObject → PlayObject → TemporalAccuracy

/-- `compareExistingScrobbleTitle` (`AbstractScrobbleClient.ts`):
`min(highScore/100, 1)`. -/
def compareExistingScrobbleTitle (o : CompareOracles) (existing candidate : PlayObject) : ℚ :=
  min (o.trackHighScore existing candidate / 100) 1

/-- `compareExistingScrobbleArtist` (`AbstractScrobbleClient.ts`): the pair
of `min(compareScrobbleArtists/100, 1)` and the number of whole
(post-normalization set-intersection) artist matches. -/
def compareExistingScrobbleArtist (o : CompareOracles) (existing candidate : PlayObject) :
    ℚ × Nat :=
  let normExisting := existing.data.artists.map (fun x => o.normalize x)
  let candidateExisting := candidate.data.artists.map (fun x => o.normalize x)
  let wholeMatches := (normExisting.toFinset ∩ candidateExisting.toFinset).card
  (min (o.artistScoreRaw existing candidate / 100) 1, wholeMatches)

/-- The complete per-candidate score `existingScrobble` computes for a
recent scrobble `x` against the queried play. -/
def scoreOf (o : CompareOracles) (x playObj : PlayObject) : ℚ :=
  let timeMatch := timeMatchScore (o.temporal x playObj)
  let titleMatch := compareExistingScrobbleTitle o x playObj
  let artistPair := compareExistingScrobbleArtist o x playObj
  scoreCandidate timeMatch titleMatch artistPair.1 artistPair.2
    (comparingMultipleArtists x playObj)

/-- Modelled from the spec: `playObjDataMatch` (from `utils.ts`, not among
the provided sources) is the date-invariant data match used by
`findExistingSubmittedPlayObj` — track, artist and album equality. -/
def playObjDataMatch (a b : PlayObject) : Bool :=
  a.data.track == b.data.track && a.data.artists == b.data.artists
    && a.data.album == b.data.album

/-- `findExistingSubmittedPlayObj` (`AbstractScrobbleClient.ts`): filter the
locally recorded submissions by date-invariant data match; among those, an
exact hit additionally requires temporal accuracy of at least `CLOSE`. -/
def findExistingSubmittedPlayObj (o : CompareOracles) (st : ClientState)
    (playObj : PlayObject) : Option ScrobbledPlayObject × List ScrobbledPlayObject :=
  let dtInvariantMatches :=
    st.scrobbledPlayObjs.filter (fun x => playObjDataMatch playObj x.play)
  if dtInvariantMatches.length = 0 then
    (none, [])
  else
    let matchPlayDate := dtInvariantMatches.find? (fun x =>
      temporalAccuracyIsAtLeast .CLOSE (o.temporal x.play playObj))
    (matchPlayDate, dtInvariantMatches)

/-- `existingScrobble` (`AbstractScrobbleClient.ts` lines 286-420), with the
logging elided: `undefined` is `none`.  When `checkExistingScrobbles` is
false the check is skipped entirely; an exact previously-submitted match is
returned directly; otherwise, with no recent scrobbles the play is assumed
unsubmitted, and with recent scrobbles the first candidate whose weighted
score reaches `DUP_SCORE_THRESHOLD` is returned. -/
def existingScrobble (o : CompareOracles) (st : ClientState)
    (playObj : PlayObject) : Option PlayObject :=
  if st.checkExistingScrobbles = false then
    none
  else
    match (findExistingSubmittedPlayObj o st playObj).1 with
    | some existingExactSubmitted => some existingExactSubmitted.scrobble
    | none =>
      if st.recentScrobbles.length = 0 then
        none
      else
        (st.recentScrobbles.find? (fun x =>
          decide (DUP_SCORE_THRESHOLD ≤ scoreOf o x playObj))).map (fun x => x)

/-- Modelled from the spec: the ordering `sortByOldestPlayDate` (from
`utils.ts`, not among the provided sources) establishes on queued
scrobbles — ascending play date. -/
def queuedLE (a b : QueuedScrobble) : Prop :=
  a.play.data.playDate ≤ b.play.data.playDate

instance : DecidableRel queuedLE := fun _ _ => Int.decLe _ _

instance : IsTotal QueuedScrobble queuedLE := ⟨fun _ _ => Int.le_total _ _⟩

instance : IsTrans QueuedScrobble queuedLE := ⟨fun _ _ _ h1 h2 => le_trans h1 h2⟩

/-- Modelled from the spec: the same ascending play-date ordering on
dead-letter entries. -/
def deadLE (a b : DeadLetterScrobble) : Prop :=
  a.play.data.playDate ≤ b.play.data.playDate

instance : DecidableRel deadLE := fun _ _ => Int.decLe _ _

instance : IsTotal DeadLetterScrobble deadLE := ⟨fun _ _ => Int.le_total _ _⟩

instance : IsTrans DeadLetterScrobble deadLE := ⟨fun _ _ _ h1 h2 => le_trans h1 h2⟩

/-- The per-play wrapping step of `queueScrobble`: each input play becomes a
queued scrobble with a fresh id (`idGen` stands in for `nanoid`, indexed by
the play's position). -/
def mkQueuedEntries (plays : List PlayObject) (source : String)
    (idGen : Nat → String) : List QueuedScrobble :=
  plays.enum.map (fun ip =>
    { id := idGen ip.1, source := source, play := ip.2 : QueuedScrobble })

/-- `queueScrobble` (`AbstractScrobbleClient.ts` lines 704-712): wrap and
push each input play, then re-sort the queue by oldest play date (JavaScript
`Array.sort` is stable, modelled by the stable `List.insertionSort`). -/
def queueScrobble (st : ClientState) (plays : List PlayObject) (source : String)
    (idGen : Nat → String) : ClientState :=
  let pushed := st.queuedScrobbles ++ mkQueuedEntries plays source idGen
  { st with queuedScrobbles := List.insertionSort queuedLE pushed }

/-- `MAX_STORED_SCROBBLES` of `AbstractScrobbleClient`. -/
def MAX_STORED_SCROBBLES : Nat := 40

/-- `addScrobbledTrack` (`AbstractScrobbleClient.ts`): record the submitted
play and the upstream response, and bump the counter.  Modelled from the
`fixed-size-list` library: `add` prepends and evicts beyond capacity. -/
def addScrobbledTrack (st : ClientState) (playObj scrobbledPlay : PlayObject) : ClientState :=
  { st with
    scrobbledPlayObjs :=
      ({ play := playObj, scrobble := scrobbledPlay : ScrobbledPlayObject}
        :: st.scrobbledPlayObjs).take MAX_STORED_SCROBBLES
    tracksScrobbled := st.tracksScrobbled + 1 }

/-- The error outcomes an adapter `scrobble` call can produce: an
`UpstreamError` with its `showStopper` flag and message, or any other
error. -/
inductive ScrobbleFailure where
  | upstream (showStopper : Bool) (message : String)
  | other (message : String)
deriving DecidableEq, Repr

/-- The `e instanceof UpstreamError && e.showStopper === false` test of
`doProcessing`. -/
def isNonShowStopperUpstream : ScrobbleFailure → Bool
  | .upstream showStopper _ => !showStopper
  | .other _ => false

/-- `messageWithCauses` applied to a failure, modelled as the stored
message. -/
def failureMessage : ScrobbleFailure → String
  | .upstream _ m => m
  | .other m => m

/-- `addDeadLetterScrobble` (`AbstractScrobbleClient.ts` lines 714-725):
build the dead entry and push it, then re-sort by oldest play date.  In the
source the object spread `\x7bid: nanoid(), retries: 0, error: eString,
...data\x7d` lets `data.id` override the fresh nanoid, so the entry keeps the
queued scrobble's id. -/
def addDeadLetterScrobble (st : ClientState) (data : QueuedScrobble)
    (eString : String) : ClientState :=
  let deadData : DeadLetterScrobble :=
    { id := data.id, source := data.source, play := data.play,
      retries := 0, error := eString, lastRetry := none }
  { st with deadLetterScrobbles :=
      List.insertionSort deadLE (st.deadLetterScrobbles ++ [deadData]) }

/-- The abstract-method oracles the worker loop consults:
`alreadyScrobbled` and the adapter scrobble call. -/
structure WorkerEnv where
  alreadyScrobbled : PlayObject → Bool
  scrobbleResult : PlayObject → Except ScrobbleFailure PlayObject

/-- One pass of the inner body of `doProcessing`
(`AbstractScrobbleClient.ts` lines 576-594) over the head of the queue:
dequeue, drop if the timeframe is invalid or the play was already scrobbled,
otherwise attempt the scrobble; an `UpstreamError` with `showStopper ===
false` moves the entry to the dead-letter queue and the loop continues
(`none` returned), any other failure puts the entry back at the front and
rethrows (`some` returned).  The lazy `refreshScrobbles` call is a
state-preserving suspension point and is elided. -/
def processQueueItem (env : WorkerEnv) (st : ClientState) :
    ClientState × Option ScrobbleFailure :=
  match st.queuedScrobbles with
  | [] => (st, none)
  | currQueuedPlay :: rest =>
    let st1 := { st with queuedScrobbles := rest }
    let timeFrameValid := (timeFrameIsValid st1 currQueuedPlay.play).1
    if timeFrameValid && !(env.alreadyScrobbled currQueuedPlay.play) then
      match env.scrobbleResult currQueuedPlay.play with
      | .ok scrobbledPlay =>
        (addScrobbledTrack st1 currQueuedPlay.play scrobbledPlay, none)
      | .error e =>
        if isNonShowStopperUpstream e then
          (addDeadLetterScrobble st1 currQueuedPlay (failureMessage e), none)
        else
          ({ st1 with queuedScrobbles := currQueuedPlay :: rest }, some e)
    else
      (st1, none)

/-- The oracles the dead-letter processing consults: the readiness check,
the abstract `alreadyScrobbled`, the adapter scrobble call, and the current
time recorded in `lastRetry`. -/
structure DeadLetterEnv where
  ready : Bool
  alreadyScrobbled : PlayObject → Bool
  scrobbleResult : PlayObject → Except ScrobbleFailure PlayObject
  now : Int

/-- `removeDeadLetterScrobble` (`AbstractScrobbleClient.ts`): splice out the
first entry with the given id (in the source a missing id faults after a
warning; here it leaves the list unchanged, a path the verified properties
never take). -/
def removeDeadLetterScrobble (st : ClientState) (id : String) : ClientState :=
  let index := st.deadLetterScrobbles.findIdx (fun x => x.id == id)
  { st with deadLetterScrobbles := st.deadLetterScrobbles.eraseIdx index }

/-- `processDeadLetterScrobble` (`AbstractScrobbleClient.ts` lines 646-681):
look the entry up by id; bail out (`false`) when the client is not ready;
when the timeframe is valid and the play not already scrobbled, attempt the
scrobble — on success record it and remove the entry (`true`), on failure
bump `retries`, store the error message and `lastRetry`, and keep the
updated entry in place (`false`); when the timeframe is invalid or the play
was already scrobbled, just remove the entry (`true`).  The lazy
`refreshScrobbles` call is a state-preserving suspension point and is
elided. -/
def processDeadLetterScrobble (env : DeadLetterEnv) (st : ClientState)
    (id : String) : Bool × ClientState :=
  let deadScrobbleIndex := st.deadLetterScrobbles.findIdx (fun x => x.id == id)
  match st.deadLetterScrobbles[deadScrobbleIndex]? with
  | none => (false, st)
  | some deadScrobble =>
    if env.ready = false then
      (false, st)
    else
      let timeFrameValid := (timeFrameIsValid st deadScrobble.play).1
      if timeFrameValid && !(env.alreadyScrobbled deadScrobble.play) then
        match env.scrobbleResult deadScrobble.play with
        | .ok scrobbledPlay =>
          let st1 := addScrobbledTrack st deadScrobble.play scrobbledPlay
          (true, removeDeadLetterScrobble st1 deadScrobble.id)
        | .error e =>
          let updated := { deadScrobble with
            retries := deadScrobble.retries + 1,
            error := failureMessage e,
            lastRetry := some env.now }
          (false, { st with deadLetterScrobbles :=
            st.deadLetterScrobbles.set deadScrobbleIndex updated })
      else
        (true, removeDeadLetterScrobble st deadScrobble.id)

/-- The `for...of` loop of `processDeadLetterQueue` over the live
`deadLetterScrobbles` array.  JavaScript array iteration is index-based over
the mutated array, so removing the current entry shifts the cursor past the
next one; the embedding therefore tracks the cursor `i` explicitly.  `fuel`
bounds the iteration (the array never grows, so a fuel of the initial length
is exact).  Besides the final state, the list of entries on which
`processDeadLetterScrobble` was invoked is returned. -/
def processDLQPass (env : DeadLetterEnv) (retries : Nat) :
    Nat → Nat → ClientState → ClientState × List DeadLetterScrobble
  | _, 0, st => (st, [])
  | i, Nat.succ fuel, st =>
    match st.deadLetterScrobbles[i]? with
    | none => (st, [])
    | some deadScrobble =>
      if deadScrobble.retries < retries then
        let st1 := (processDeadLetterScrobble env st deadScrobble.id).2
        let res := processDLQPass env retries (i + 1) fuel st1
        (res.1, deadScrobble :: res.2)
      else
        processDLQPass env retries (i + 1) fuel st

/-- `processDeadLetterQueue` (`AbstractScrobbleClient.ts` lines 610-644)
with retry limit `retries` (in the source `attemptWithRetries ??
config.options.deadLetterRetries`, the latter defaulting to 1): skip when
the dead-letter queue is empty or no entry has fewer than `retries` retries,
otherwise run the replay loop.  Returns the final state and the entries the
loop attempted. -/
def processDeadLetterQueue (env : DeadLetterEnv) (retries : Nat)
    (st : ClientState) : ClientState × List DeadLetterScrobble :=
  if st.deadLetterScrobbles.length = 0 then
    (st, [])
  else
    let processable := st.deadLetterScrobbles.filter (fun x => x.retries < retries)
    if processable.length = 0 then
      (st, [])
    else
      processDLQPass env retries 0 st.deadLetterScrobbles.length st

/-- A simplified Spotify artist object (`ArtistObjectSimplified`): the two
fields `formatPlayObj` reads. -/
structure SpotifyArtist where
  id : String
  name : String
deriving DecidableEq, Repr

/-- A simplified Spotify album object (`AlbumObjectSimplified`): the two
fields `formatPlayObj` reads. -/
structure SpotifyAlbum where
  name : String
  artists : List SpotifyArtist := []
deriving DecidableEq, Repr

/-- The track fields `SpotifySource.formatPlayObj` destructures from a
`PlayHistoryObject` or `CurrentlyPlayingObject` response. -/
structure SpotifyTrack where
  artists : List SpotifyArtist := []
  name : String := ""
  id : String := ""
  duration_ms : ℚ := 0
  album : Option SpotifyAlbum := none
deriving DecidableEq, Repr

namespace SpotifySource

/-- `SpotifySource.formatPlayObj` (Spotify source module, lines 176-190
of the album-artist handling): after extracting the track fields from either
response shape, album artists are retained only when they are not the exact
same set of ids as the track artists — and then all of them are retained,
duplicates included.  `played_at` is the already-parsed timestamp. -/
def formatPlayObj (track : SpotifyTrack) (played_at : Int) : PlayObject :=
  let albumName := (track.album.map (fun a => a.name))
  let albumArtists := (track.album.map (fun a => a.artists)).getD []
  let trackArtistIds := track.artists.map (fun x => x.id)
  let actualAlbumArtists :=
    if 0 < (albumArtists.filter (fun x => !(trackArtistIds.contains x.id))).length then
      albumArtists
    else
      []
  { data :=
    { artists := track.artists.map (fun x => x.name)
      albumArtists := actualAlbumArtists.map (fun x => x.name)
      album := albumName
      track := track.name
      duration := some (track.duration_ms / 1000)
      playDate := played_at } }

end SpotifySource

/-- A concrete oracle record for witnesses and counterexamples: zero
similarity scores, identity normalization, and the spec-modelled temporal
comparison. -/
def trivialOracles : CompareOracles :=
  { trackHighScore := fun _ _ => 0
    artistScoreRaw := fun _ _ => 0
    normalize := fun s => s
    temporal := comparePlayTemporally }

/-- Claim C10: when the client's `oldestScrobbleTime` is undefined,
`timeFrameIsValid` returns true with an empty log string, regardless of the
play's play date. -/
theorem claim_C10 (st : ClientState) (p : PlayObject)
    (h : st.oldestScrobbleTime = none) :
    timeFrameIsValid st p = (true, "") := by
  simp [timeFrameIsValid, h]

theorem claim_C10_witness :
    ({ oldestScrobbleTime := none : ClientState }).oldestScrobbleTime = none ∧
    timeFrameIsValid { oldestScrobbleTime := none }
      { data := { playDate := -1000000 } } = (true, "") :=
  ⟨rfl, claim_C10 { oldestScrobbleTime := none }
    { data := { playDate := -1000000 } } rfl⟩

/-- Claim C7: when `checkExistingScrobbles` is false, `existingScrobble`
returns `none` for every play, every oracle record and every state — in
particular no comparison outcome against `scrobbledPlayObjs` or
`recentScrobbles` can change the result. -/
theorem claim_C7 (o : CompareOracles) (st : ClientState) (p : PlayObject)
    (h : st.checkExistingScrobbles = false) :
    existingScrobble o st p = none := by
  simp [existingScrobble, h]

theorem claim_C7_witness :
    ({ checkExistingScrobbles := false,
       recentScrobbles := [{ data := { track := "t" } }],
       scrobbledPlayObjs :=
         [{ play := { data := { track := "t" } },
            scrobble := { data := { track := "t" } } }] : ClientState
     }).checkExistingScrobbles = false ∧
    existingScrobble trivialOracles
      { checkExistingScrobbles := false,
        recentScrobbles := [{ data := { track := "t" } }],
        scrobbledPlayObjs :=
          [{ play := { data := { track := "t" } },
             scrobble := { data := { track := "t" } } }] }
      { data := { track := "t" } } = none :=
  ⟨rfl, claim_C7 trivialOracles _ _ rfl⟩

/-- Claim C5: the time subscore computed by `existingScrobble` is `1`
exactly when the temporal comparison of the play dates is `EXACT` or
`CLOSE`, `0.6` when it is `FUZZY`, and `0` in every other case. -/
theorem claim_C5 (m : TemporalAccuracy) :
    timeMatchScore m =
      if m = .EXACT ∨ m = .CLOSE then 1
      else if m = .FUZZY then 3/5
      else 0 := by
  cases m <;>
    simp [timeMatchScore, temporalAccuracyIsAtLeast, TemporalAccuracy.rank]

/-- Claim C1: the score `existingScrobble` assigns to a candidate is the
bonus-recomputed value exactly when the plain weighted score is below 1, the
time subscore is positive, the title subscore exceeds 0.98, the artist
subscore exceeds 0.1, at least one whole artist match exists and both plays
have more than one artist; in every other case it is the plain weighted sum
`ARTIST_WEIGHT*artist + TITLE_WEIGHT*title + TIME_WEIGHT*time`. -/
theorem claim_C1 (x p : PlayObject) (time title artist : ℚ) (whole : Nat) :
    scoreCandidate time title artist whole (comparingMultipleArtists x p) =
      if ARTIST_WEIGHT * artist + TITLE_WEIGHT * title + TIME_WEIGHT * time < 1
          ∧ 0 < time ∧ 49/50 < title ∧ 1/10 < artist ∧ 0 < whole
          ∧ (1 < x.data.artists.length ∧ 1 < p.data.artists.length) then
        (ARTIST_WEIGHT + 1/20) *
            (artist + max (max (artist * (1/2)) ((1 - artist) * (3/4))) (1/10))
          + TITLE_WEIGHT * title + TIME_WEIGHT * time
      else
        ARTIST_WEIGHT * artist + TITLE_WEIGHT * title + TIME_WEIGHT * time := by
  simp only [scoreCandidate, comparingMultipleArtists, Bool.and_eq_true,
    decide_eq_true_eq]

/-- Claim C4: `queueScrobble` on a play-date-sorted queue leaves the queue a
permutation of the old entries plus one fresh entry per input play (in
particular the wrapped entries carry exactly the input plays), again sorted
non-decreasingly by play date. -/
theorem claim_C4 (st : ClientState) (plays : List PlayObject) (source : String)
    (idGen : Nat → String)
    (h : List.Sorted queuedLE st.queuedScrobbles) :
    ((queueScrobble st plays source idGen).queuedScrobbles).Perm
        (st.queuedScrobbles ++ mkQueuedEntries plays source idGen)
    ∧ List.Sorted queuedLE (queueScrobble st plays source idGen).queuedScrobbles
    ∧ (mkQueuedEntries plays source idGen).map (fun q => q.play) = plays := by
  refine ⟨?_, ?_, ?_⟩
  · simp only [queueScrobble]
    exact List.perm_insertionSort _ _
  · simp only [queueScrobble]
    exact List.sorted_insertionSort _ _
  · simp [mkQueuedEntries, Function.comp_def, List.enum_map_snd]

/-- The queue entry used in the witness for claim C4. -/
def c4Entry : QueuedScrobble :=
  { id := "q0", source := "s", play := { data := { playDate := 3 } } }

/-- The client state used in the witness for claim C4. -/
def c4State : ClientState := { queuedScrobbles := [c4Entry] }

/-- The play enqueued in the witness for claim C4. -/
def c4Play : PlayObject := { data := { playDate := 1 } }

theorem claim_C4_witness :
    List.Sorted queuedLE c4State.queuedScrobbles ∧
    (((queueScrobble c4State [c4Play] "s" (fun _ => "q1")).queuedScrobbles).Perm
        (c4State.queuedScrobbles ++ mkQueuedEntries [c4Play] "s" (fun _ => "q1")) ∧
      List.Sorted queuedLE
        (queueScrobble c4State [c4Play] "s" (fun _ => "q1")).queuedScrobbles ∧
      (mkQueuedEntries [c4Play] "s" (fun _ => "q1")).map (fun q => q.play)
        = [c4Play]) :=
  ⟨List.sorted_singleton _,
    claim_C4 c4State [c4Play] "s" (fun _ => "q1") (List.sorted_singleton _)⟩

/-- The play used to refute claim C6. -/
def c6Play : PlayObject :=
  { data := { track := "Sonora", artists := ["The Bongo Hop"], playDate := 100 } }

/-- The upstream response recorded for `c6Play` in the refuting state. -/
def c6Scrobble : PlayObject :=
  { data := { track := "Sonora", artists := ["The Bongo Hop"], playDate := 101 } }

/-- A client state with an empty `recentScrobbles` list but a previously
submitted exact match for `c6Play`. -/
def c6State : ClientState :=
  { checkExistingScrobbles := true
    recentScrobbles := []
    scrobbledPlayObjs := [{ play := c6Play, scrobble := c6Scrobble }] }

theorem claim_C6_counterexample :
    c6State.checkExistingScrobbles = true ∧ c6State.recentScrobbles = [] ∧
    existingScrobble trivialOracles c6State c6Play = some c6Scrobble := by
  refine ⟨rfl, rfl, ?_⟩
  decide

/-- Claim C6 (amended): with `checkExistingScrobbles` true, an empty
`recentScrobbles` list, and no exact match among the previously submitted
plays, `existingScrobble` returns `none`. -/
theorem claim_C6 (o : CompareOracles) (st : ClientState) (p : PlayObject)
    (hc : st.checkExistingScrobbles = true)
    (hs : (findExistingSubmittedPlayObj o st p).1 = none)
    (hr : st.recentScrobbles = []) :
    existingScrobble o st p = none := by
  simp [existingScrobble, hc, hs, hr]

theorem claim_C6_witness :
    (({} : ClientState)).checkExistingScrobbles = true ∧
    (findExistingSubmittedPlayObj trivialOracles {} {}).1 = none ∧
    (({} : ClientState)).recentScrobbles = [] ∧
    existingScrobble trivialOracles {} {} = none :=
  ⟨rfl, rfl, rfl, claim_C6 trivialOracles {} {} rfl rfl rfl⟩

/-- Claim C8: with a defined `oldestScrobbleTime`, `timeFrameIsValid` holds
exactly when the play date is strictly after it; and a dequeued play whose
timeframe is invalid is dropped by the worker body — for every adapter
oracle the result state only loses the queue head (no scrobble recorded, no
dead-letter entry added) and no error is raised. -/
theorem claim_C8 :
    (∀ (st : ClientState) (p : PlayObject) (t : Int),
        st.oldestScrobbleTime = some t →
        ((timeFrameIsValid st p).1 = true ↔ t < p.data.playDate))
    ∧ (∀ (env : WorkerEnv) (st : ClientState) (q : QueuedScrobble)
          (rest : List QueuedScrobble),
        st.queuedScrobbles = q :: rest →
        (timeFrameIsValid st q.play).1 = false →
        processQueueItem env st = ({ st with queuedScrobbles := rest }, none)) := by
  constructor
  · intro st p t h
    simp [timeFrameIsValid, h]
  · intro env st q rest hq htf
    obtain ⟨ces, ost, rs, sp, qs, dls, ts⟩ := st
    simp only at hq
    subst hq
    have htf2 : (timeFrameIsValid
        { checkExistingScrobbles := ces, oldestScrobbleTime := ost,
          recentScrobbles := rs, scrobbledPlayObjs := sp,
          queuedScrobbles := rest, deadLetterScrobbles := dls,
          tracksScrobbled := ts } q.play).1 = false := htf
    simp [processQueueItem, htf2]

theorem claim_C8_witness :
    (({ oldestScrobbleTime := some 50 : ClientState }).oldestScrobbleTime
        = some 50 ∧
      ((timeFrameIsValid { oldestScrobbleTime := some 50 }
          { data := { playDate := 60 } }).1 = true ↔
        (50 : Int) < ({ data := { playDate := 60 } } : PlayObject).data.playDate))
    ∧ (({ oldestScrobbleTime := some 50,
          queuedScrobbles := [c4Entry] : ClientState }).queuedScrobbles
          = c4Entry :: [] ∧
        (timeFrameIsValid
          { oldestScrobbleTime := some 50, queuedScrobbles := [c4Entry] }
          c4Entry.play).1 = false ∧
        processQueueItem
          { alreadyScrobbled := fun _ => false,
            scrobbleResult := fun p => Except.ok p }
          { oldestScrobbleTime := some 50, queuedScrobbles := [c4Entry] }
          = ({ oldestScrobbleTime := some 50, queuedScrobbles := [] }, none)) :=
  ⟨⟨rfl, claim_C8.1 { oldestScrobbleTime := some 50 }
      { data := { playDate := 60 } } 50 rfl⟩,
    ⟨rfl, by decide,
      claim_C8.2
        { alreadyScrobbled := fun _ => false,
          scrobbleResult := fun p => Except.ok p }
        { oldestScrobbleTime := some 50, queuedScrobbles := [c4Entry] }
        c4Entry [] rfl (by decide)⟩⟩

/-- The dead-letter entry `addDeadLetterScrobble` builds for a queued
scrobble and an error message. -/
def mkDeadEntry (q : QueuedScrobble) (eString : String) : DeadLetterScrobble :=
  { id := q.id, source := q.source, play := q.play,
    retries := 0, error := eString, lastRetry := none }

/-- Claim C2: when the dequeued head's scrobble attempt fails, an
`UpstreamError` with `showStopper === false` sends the entry to the
dead-letter queue (exactly one new entry, the queue advances, no error
escapes the iteration), while any other failure restores the entry at the
front of the queue and rethrows the error. -/
theorem claim_C2 (env : WorkerEnv) (st : ClientState) (q : QueuedScrobble)
    (rest : List QueuedScrobble) (e : ScrobbleFailure)
    (hq : st.queuedScrobbles = q :: rest)
    (htf : (timeFrameIsValid st q.play).1 = true)
    (ha : env.alreadyScrobbled q.play = false)
    (hres : env.scrobbleResult q.play = .error e) :
    (isNonShowStopperUpstream e = true →
      (processQueueItem env st).2 = none ∧
      (processQueueItem env st).1.queuedScrobbles = rest ∧
      ((processQueueItem env st).1.deadLetterScrobbles).Perm
        (st.deadLetterScrobbles ++ [mkDeadEntry q (failureMessage e)]) ∧
      mkDeadEntry q (failureMessage e) ∈
        (processQueueItem env st).1.deadLetterScrobbles)
    ∧ (isNonShowStopperUpstream e = false →
      processQueueItem env st = (st, some e)) := by
  obtain ⟨ces, ost, rs, sp, qs, dls, ts⟩ := st
  simp only at hq
  subst hq
  have htf2 : (timeFrameIsValid
      { checkExistingScrobbles := ces, oldestScrobbleTime := ost,
        recentScrobbles := rs, scrobbledPlayObjs := sp,
        queuedScrobbles := rest, deadLetterScrobbles := dls,
        tracksScrobbled := ts } q.play).1 = true := htf
  constructor
  · intro hns
    have hred : processQueueItem env
        { checkExistingScrobbles := ces, oldestScrobbleTime := ost,
          recentScrobbles := rs, scrobbledPlayObjs := sp,
          queuedScrobbles := q :: rest, deadLetterScrobbles := dls,
          tracksScrobbled := ts }
        = (addDeadLetterScrobble
            { checkExistingScrobbles := ces, oldestScrobbleTime := ost,
              recentScrobbles := rs, scrobbledPlayObjs := sp,
              queuedScrobbles := rest, deadLetterScrobbles := dls,
              tracksScrobbled := ts } q (failureMessage e), none) := by
      simp [processQueueItem, htf2, ha, hres, hns]
    rw [hred]
    refine ⟨rfl, rfl, ?_, ?_⟩
    · simpa [addDeadLetterScrobble, mkDeadEntry]
        using List.perm_insertionSort deadLE
          (dls ++ [mkDeadEntry q (failureMessage e)])
    · simp [addDeadLetterScrobble, mkDeadEntry]
  · intro hss
    simp [processQueueItem, htf2, ha, hres, hss]

/-- The client state used in the witness for claim C2. -/
def c2State : ClientState := { queuedScrobbles := [c4Entry] }

/-- A worker whose adapter fails with a non-show-stopping upstream error. -/
def c2EnvDead : WorkerEnv :=
  { alreadyScrobbled := fun _ => false
    scrobbleResult := fun _ =>
      Except.error (ScrobbleFailure.upstream false "rate limited") }

/-- A worker whose adapter fails with a non-upstream error. -/
def c2EnvStop : WorkerEnv :=
  { alreadyScrobbled := fun _ => false
    scrobbleResult := fun _ =>
      Except.error (ScrobbleFailure.other "network down") }

theorem claim_C2_witness :
    ((processQueueItem c2EnvDead c2State).2 = none ∧
      (processQueueItem c2EnvDead c2State).1.queuedScrobbles = [] ∧
      ((processQueueItem c2EnvDead c2State).1.deadLetterScrobbles).Perm
        (c2State.deadLetterScrobbles ++
          [mkDeadEntry c4Entry
            (failureMessage (ScrobbleFailure.upstream false "rate limited"))]) ∧
      mkDeadEntry c4Entry
          (failureMessage (ScrobbleFailure.upstream false "rate limited")) ∈
        (processQueueItem c2EnvDead c2State).1.deadLetterScrobbles)
    ∧ processQueueItem c2EnvStop c2State
        = (c2State, some (ScrobbleFailure.other "network down")) :=
  ⟨(claim_C2 c2EnvDead c2State c4Entry []
      (ScrobbleFailure.upstream false "rate limited")
      rfl (by decide) rfl rfl).1 rfl,
    (claim_C2 c2EnvStop c2State c4Entry []
      (ScrobbleFailure.other "network down")
      rfl (by decide) rfl rfl).2 rfl⟩

/-- The album artists a Spotify track response carries (empty when the album
is absent). -/
def spotifyAlbumArtistsOf (track : SpotifyTrack) : List SpotifyArtist :=
  (track.album.map (fun a => a.artists)).getD []

/-- The album-artist retention condition of `SpotifySource.formatPlayObj`,
factored out: the filtered list of album artists whose id is not a track
artist id. -/
def spotifyForeignAlbumArtists (track : SpotifyTrack) : List SpotifyArtist :=
  (spotifyAlbumArtistsOf track).filter
    (fun x => !((track.artists.map (fun y => y.id)).contains x.id))

theorem formatPlayObj_albumArtists (track : SpotifyTrack) (played_at : Int) :
    (SpotifySource.formatPlayObj track played_at).data.albumArtists =
      if 0 < (spotifyForeignAlbumArtists track).length then
        (spotifyAlbumArtistsOf track).map (fun x => x.name)
      else
        [] := by
  simp only [SpotifySource.formatPlayObj, spotifyForeignAlbumArtists,
    spotifyAlbumArtistsOf]
  rw [apply_ite (List.map (fun x : SpotifyArtist => x.name))]
  simp only [List.map_nil]

/-- Claim C9: `SpotifySource.formatPlayObj` produces an empty
`data.albumArtists` exactly when every album artist id also occurs among the
track artist ids; otherwise it retains the names of all album artists,
duplicates of track artists included. -/
theorem claim_C9 (track : SpotifyTrack) (played_at : Int) :
    ((∀ a ∈ spotifyAlbumArtistsOf track,
        a.id ∈ track.artists.map (fun x => x.id)) →
      (SpotifySource.formatPlayObj track played_at).data.albumArtists = [])
    ∧ ((∃ a ∈ spotifyAlbumArtistsOf track,
        a.id ∉ track.artists.map (fun x => x.id)) →
      (SpotifySource.formatPlayObj track played_at).data.albumArtists =
        (spotifyAlbumArtistsOf track).map (fun x => x.name)) := by
  rw [formatPlayObj_albumArtists]
  constructor
  · intro h
    have hf : spotifyForeignAlbumArtists track = [] := by
      rw [spotifyForeignAlbumArtists, List.filter_eq_nil_iff]
      intro a ha
      simp only [Bool.not_eq_true', Bool.not_eq_false]
      exact List.elem_eq_true_of_mem (h a ha)
    simp [hf]
  · intro h
    obtain ⟨a, ha, hid⟩ := h
    have hpos : 0 < (spotifyForeignAlbumArtists track).length := by
      rw [List.length_pos]
      intro hnil
      rw [spotifyForeignAlbumArtists, List.filter_eq_nil_iff] at hnil
      exact (hnil a ha) (by simpa using hid)
    simp [hpos]

/-- A track artist for the claim C9 witness. -/
def c9ArtistA : SpotifyArtist := { id := "a1", name := "Artist One" }

/-- An album-only artist for the claim C9 witness. -/
def c9ArtistB : SpotifyArtist := { id := "a2", name := "Artist Two" }

/-- A Spotify track whose album artists match the track artists exactly. -/
def c9TrackSame : SpotifyTrack :=
  { artists := [c9ArtistA], name := "T", id := "t1", duration_ms := 1000,
    album := some { name := "Al", artists := [c9ArtistA] } }

/-- A Spotify track with an album artist that is not a track artist. -/
def c9TrackDiff : SpotifyTrack :=
  { artists := [c9ArtistA], name := "T", id := "t1", duration_ms := 1000,
    album := some { name := "Al", artists := [c9ArtistA, c9ArtistB] } }

theorem claim_C9_witness :
    ((∀ a ∈ spotifyAlbumArtistsOf c9TrackSame,
        a.id ∈ c9TrackSame.artists.map (fun x => x.id)) ∧
      (SpotifySource.formatPlayObj c9TrackSame 0).data.albumArtists = []) ∧
    ((∃ a ∈ spotifyAlbumArtistsOf c9TrackDiff,
        a.id ∉ c9TrackDiff.artists.map (fun x => x.id)) ∧
      (SpotifySource.formatPlayObj c9TrackDiff 0).data.albumArtists
        = ["Artist One", "Artist Two"]) :=
  ⟨⟨by decide, (claim_C9 c9TrackSame 0).1 (by decide)⟩,
    ⟨by decide, by rw [(claim_C9 c9TrackDiff 0).2 (by decide)]; decide⟩⟩

lemma mem_eraseIdx_of_ne {α : Type} {l : List α} {i : Nat} {x d : α}
    (hx : l[i]? = some x) (hd : d ∈ l) (hne : d ≠ x) : d ∈ l.eraseIdx i := by
  rw [List.mem_eraseIdx_iff_getElem?]
  obtain ⟨j, hj, hget⟩ := List.getElem_of_mem hd
  refine ⟨j, ?_, ?_⟩
  · intro hji
    subst hji
    rw [List.getElem?_eq_getElem hj, hget] at hx
    cases hx
    exact hne rfl
  · rw [List.getElem?_eq_getElem hj, hget]

lemma mem_set_of_ne {α : Type} {l : List α} {i : Nat} {x d v : α}
    (hx : l[i]? = some x) (hd : d ∈ l) (hne : d ≠ x) : d ∈ l.set i v := by
  obtain ⟨j, hj, hget⟩ := List.getElem_of_mem hd
  have hij : i ≠ j := by
    intro h
    subst h
    rw [List.getElem?_eq_getElem hj, hget] at hx
    cases hx
    exact hne rfl
  have hj2 : j < (l.set i v).length := by simpa using hj
  have : (l.set i v)[j] = d := by
    rw [List.getElem_set_ne hij hj2, hget]
  exact this ▸ List.getElem_mem hj2

lemma set_self_of_getElem? {α : Type} {l : List α} {i : Nat} {x : α}
    (hx : l[i]? = some x) : l.set i x = l := by
  apply List.ext_getElem?
  intro n
  rw [List.getElem?_set]
  split
  · next h =>
    subst h
    obtain ⟨hlt, hval⟩ := List.getElem?_eq_some_iff.mp hx
    rw [if_pos hlt, hx]
  · rfl

lemma mem_removeDeadLetterScrobble {st : ClientState} {rid : String}
    {d : DeadLetterScrobble} (hd : d ∈ st.deadLetterScrobbles)
    (hne : d.id ≠ rid) :
    d ∈ (removeDeadLetterScrobble st rid).deadLetterScrobbles := by
  show d ∈ st.deadLetterScrobbles.eraseIdx
    (st.deadLetterScrobbles.findIdx (fun x => x.id == rid))
  cases hx : st.deadLetterScrobbles[st.deadLetterScrobbles.findIdx
      (fun x => x.id == rid)]? with
  | none =>
    have hlen : st.deadLetterScrobbles.length ≤
        st.deadLetterScrobbles.findIdx (fun x => x.id == rid) := by
      by_contra hlt
      push_neg at hlt
      rw [List.getElem?_eq_getElem hlt] at hx
      cases hx
    rw [List.eraseIdx_of_length_le hlen]
    exact hd
  | some found =>
    have hfid : found.id = rid := by
      have := List.findIdx_of_getElem?_eq_some hx
      simpa using this
    have hne2 : d ≠ found := by
      intro hdf
      exact hne (hdf ▸ hfid)
    exact mem_eraseIdx_of_ne hx hd hne2

lemma nodup_removeDeadLetterScrobble {st : ClientState} {rid : String}
    (h : (st.deadLetterScrobbles.map (fun x => x.id)).Nodup) :
    (((removeDeadLetterScrobble st rid).deadLetterScrobbles.map
      (fun x => x.id)).Nodup) := by
  show ((st.deadLetterScrobbles.eraseIdx
    (st.deadLetterScrobbles.findIdx (fun x => x.id == rid))).map
      (fun x => x.id)).Nodup
  exact h.sublist ((List.eraseIdx_sublist _ _).map _)

lemma nodup_map_set_same {α β : Type} (f : α → β) {l : List α} {i : Nat}
    {x v : α} (hx : l[i]? = some x) (hfv : f v = f x)
    (h : (l.map f).Nodup) : ((l.set i v).map f).Nodup := by
  rw [List.map_set]
  have hmx : (l.map f)[i]? = some (f x) := by
    rw [List.getElem?_map, hx]
    rfl
  rw [hfv, set_self_of_getElem? hmx]
  exact h

lemma processDeadLetterScrobble_mem (env : DeadLetterEnv) (st : ClientState)
    (id : String) (d : DeadLetterScrobble)
    (hd : d ∈ st.deadLetterScrobbles) (hne : d.id ≠ id) :
    d ∈ (processDeadLetterScrobble env st id).2.deadLetterScrobbles := by
  simp only [processDeadLetterScrobble]
  split
  next => exact hd
  next found hfound =>
    have hfid : found.id = id := by
      have := List.findIdx_of_getElem?_eq_some hfound
      simpa using this
    have hnef : d.id ≠ found.id := by rw [hfid]; exact hne
    split
    next => exact hd
    next hready =>
      split
      next htf =>
        split
        next r hres => exact mem_removeDeadLetterScrobble hd hnef
        next e hres =>
          exact mem_set_of_ne hfound hd (fun hdf => hnef (hdf ▸ rfl))
      next htf => exact mem_removeDeadLetterScrobble hd hnef

lemma processDeadLetterScrobble_nodup (env : DeadLetterEnv) (st : ClientState)
    (id : String)
    (h : (st.deadLetterScrobbles.map (fun x => x.id)).Nodup) :
    (((processDeadLetterScrobble env st id).2.deadLetterScrobbles.map
      (fun x => x.id)).Nodup) := by
  simp only [processDeadLetterScrobble]
  split
  next => exact h
  next found hfound =>
    split
    next => exact h
    next hready =>
      split
      next htf =>
        split
        next r hres => exact nodup_removeDeadLetterScrobble h
        next e hres => exact nodup_map_set_same _ hfound rfl h
      next htf => exact nodup_removeDeadLetterScrobble h

lemma processDLQPass_invoked (env : DeadLetterEnv) (R : Nat) :
    ∀ (fuel i : Nat) (st : ClientState) (d : DeadLetterScrobble),
      d ∈ (processDLQPass env R i fuel st).2 → d.retries < R := by
  intro fuel
  induction fuel with
  | zero =>
    intro i st d h
    simp [processDLQPass] at h
  | succ n ih =>
    intro i st d h
    simp only [processDLQPass] at h
    split at h
    next => simp at h
    next ds hds =>
      split at h
      next hlt =>
        simp only [List.mem_cons] at h
        cases h with
        | inl heq => exact heq ▸ hlt
        | inr hmem => exact ih _ _ _ hmem
      next hge => exact ih _ _ _ h

lemma processDLQPass_preserves (env : DeadLetterEnv) (R : Nat) :
    ∀ (fuel i : Nat) (st : ClientState) (d : DeadLetterScrobble),
      (st.deadLetterScrobbles.map (fun x => x.id)).Nodup →
      d ∈ st.deadLetterScrobbles → R ≤ d.retries →
      d ∈ (processDLQPass env R i fuel st).1.deadLetterScrobbles := by
  intro fuel
  induction fuel with
  | zero =>
    intro i st d hnd hd hR
    simpa [processDLQPass] using hd
  | succ n ih =>
    intro i st d hnd hd hR
    simp only [processDLQPass]
    split
    next => exact hd
    next ds hds =>
      split
      next hlt =>
        have hdsmem : ds ∈ st.deadLetterScrobbles := by
          obtain ⟨hl, hv⟩ := List.getElem?_eq_some_iff.mp hds
          exact hv ▸ List.getElem_mem hl
        have hne : d.id ≠ ds.id := by
          intro hid
          have heq : d = ds := List.inj_on_of_nodup_map hnd hd hdsmem hid
          rw [heq] at hR
          exact absurd hlt (Nat.not_lt.mpr hR)
        exact ih _ _ _ (processDeadLetterScrobble_nodup env st ds.id hnd)
          (processDeadLetterScrobble_mem env st ds.id d hd hne) hR
      next hge => exact ih _ _ _ hnd hd hR

/-- The update `processDeadLetterScrobble` applies to a dead entry whose
replay failed: one more retry, the error message, and the attempt time. -/
def bumpDeadRetry (d : DeadLetterScrobble) (msg : String) (now : Int) :
    DeadLetterScrobble :=
  { d with retries := d.retries + 1, error := msg, lastRetry := some now }

lemma processDeadLetterScrobble_success (env : DeadLetterEnv) (st : ClientState)
    (d : DeadLetterScrobble) (i : Nat) (r : PlayObject)
    (hidx : st.deadLetterScrobbles.findIdx (fun x => x.id == d.id) = i)
    (hget : st.deadLetterScrobbles[i]? = some d)
    (hready : env.ready = true)
    (htf : (timeFrameIsValid st d.play).1 = true)
    (ha : env.alreadyScrobbled d.play = false)
    (hres : env.scrobbleResult d.play = .ok r) :
    processDeadLetterScrobble env st d.id
      = (true, { addScrobbledTrack st d.play r with
          deadLetterScrobbles := st.deadLetterScrobbles.eraseIdx i }) := by
  simp only [processDeadLetterScrobble, hidx, hget]
  rw [if_neg (by simp [hready])]
  rw [if_pos (by simp [htf, ha])]
  simp only [hres, removeDeadLetterScrobble, addScrobbledTrack, hidx]

lemma processDeadLetterScrobble_failure (env : DeadLetterEnv) (st : ClientState)
    (d : DeadLetterScrobble) (i : Nat) (e : ScrobbleFailure)
    (hidx : st.deadLetterScrobbles.findIdx (fun x => x.id == d.id) = i)
    (hget : st.deadLetterScrobbles[i]? = some d)
    (hready : env.ready = true)
    (htf : (timeFrameIsValid st d.play).1 = true)
    (ha : env.alreadyScrobbled d.play = false)
    (hres : env.scrobbleResult d.play = .error e) :
    processDeadLetterScrobble env st d.id
      = (false, { st with deadLetterScrobbles := st.deadLetterScrobbles.set i (bumpDeadRetry d (failureMessage e) env.now) }) := by
  simp only [processDeadLetterScrobble, hidx, hget]
  rw [if_neg (by simp [hready])]
  rw [if_pos (by simp [htf, ha])]
  simp only [hres, bumpDeadRetry]

/-- Claim C3: in a dead-letter processing run with retry limit `R`, the loop
only attempts entries with `retries < R` (so an entry with `retries ≥ R` is
never attempted and survives untouched, given the nanoid-generated entry ids
are distinct); and for an attempted entry, a successful replay removes it
from `deadLetterScrobbles` while a failed replay bumps its `retries` by one,
stores the error message and the attempt time, and keeps the updated entry
in the queue. -/
theorem claim_C3 :
    (∀ (env : DeadLetterEnv) (R : Nat) (st : ClientState)
        (d : DeadLetterScrobble),
      d ∈ (processDeadLetterQueue env R st).2 → d.retries < R)
    ∧ (∀ (env : DeadLetterEnv) (R : Nat) (st : ClientState)
        (d : DeadLetterScrobble),
      (st.deadLetterScrobbles.map (fun x => x.id)).Nodup →
      d ∈ st.deadLetterScrobbles → R ≤ d.retries →
      d ∈ (processDeadLetterQueue env R st).1.deadLetterScrobbles)
    ∧ (∀ (env : DeadLetterEnv) (st : ClientState) (d : DeadLetterScrobble)
        (i : Nat) (r : PlayObject),
      st.deadLetterScrobbles.findIdx (fun x => x.id == d.id) = i →
      st.deadLetterScrobbles[i]? = some d →
      env.ready = true →
      (timeFrameIsValid st d.play).1 = true →
      env.alreadyScrobbled d.play = false →
      env.scrobbleResult d.play = .ok r →
      processDeadLetterScrobble env st d.id
        = (true, { addScrobbledTrack st d.play r with
            deadLetterScrobbles := st.deadLetterScrobbles.eraseIdx i }))
    ∧ (∀ (env : DeadLetterEnv) (st : ClientState) (d : DeadLetterScrobble)
        (i : Nat) (e : ScrobbleFailure),
      st.deadLetterScrobbles.findIdx (fun x => x.id == d.id) = i →
      st.deadLetterScrobbles[i]? = some d →
      env.ready = true →
      (timeFrameIsValid st d.play).1 = true →
      env.alreadyScrobbled d.play = false →
      env.scrobbleResult d.play = .error e →
      processDeadLetterScrobble env st d.id
        = (false, { st with deadLetterScrobbles := st.deadLetterScrobbles.set i (bumpDeadRetry d (failureMessage e) env.now) })
      ∧ bumpDeadRetry d (failureMessage e) env.now ∈
          (processDeadLetterScrobble env st d.id).2.deadLetterScrobbles) := by
  refine ⟨?_, ?_, ?_, ?_⟩
  · intro env R st d h
    simp only [processDeadLetterQueue] at h
    split at h
    next => simp at h
    next =>
      split at h
      next => simp at h
      next => exact processDLQPass_invoked env R _ 0 st d h
  · intro env R st d hnd hd hR
    simp only [processDeadLetterQueue]
    split
    next => exact hd
    next =>
      split
      next => exact hd
      next => exact processDLQPass_preserves env R _ 0 st d hnd hd hR
  · intro env st d i r hidx hget hready htf ha hres
    exact processDeadLetterScrobble_success env st d i r hidx hget hready htf
      ha hres
  · intro env st d i e hidx hget hready htf ha hres
    have hfail := processDeadLetterScrobble_failure env st d i e hidx hget
      hready htf ha hres
    refine ⟨hfail, ?_⟩
    rw [hfail]
    have hlen : i < st.deadLetterScrobbles.length := by
      obtain ⟨hl, hv⟩ := List.getElem?_eq_some_iff.mp hget
      exact hl
    exact List.mem_set st.deadLetterScrobbles i hlen _

/-- A dead-letter entry already at the retry limit. -/
def c3dOld : DeadLetterScrobble :=
  { id := "d0", source := "s", play := { data := { playDate := 10 } },
    retries := 3, error := "old failure" }

/-- A dead-letter entry still below the retry limit. -/
def c3dNew : DeadLetterScrobble :=
  { id := "d1", source := "s", play := { data := { playDate := 20 } },
    retries := 0, error := "new failure" }

/-- The dead-letter state used in the witness for claim C3. -/
def c3State : ClientState := { deadLetterScrobbles := [c3dOld, c3dNew] }

/-- A dead-letter environment whose replays keep failing. -/
def c3EnvFail : DeadLetterEnv :=
  { ready := true, alreadyScrobbled := fun _ => false,
    scrobbleResult := fun _ =>
      Except.error (ScrobbleFailure.upstream false "still failing"),
    now := 77 }

/-- A dead-letter environment whose replays succeed. -/
def c3EnvOk : DeadLetterEnv :=
  { ready := true, alreadyScrobbled := fun _ => false,
    scrobbleResult := fun p => Except.ok p, now := 77 }

theorem claim_C3_witness :
    c3dNew.retries < 1 ∧
    c3dOld ∈ (processDeadLetterQueue c3EnvFail 1 c3State).1.deadLetterScrobbles ∧
    processDeadLetterScrobble c3EnvOk c3State c3dNew.id
      = (true, { addScrobbledTrack c3State c3dNew.play c3dNew.play with
          deadLetterScrobbles := c3State.deadLetterScrobbles.eraseIdx 1 }) ∧
    processDeadLetterScrobble c3EnvFail c3State c3dNew.id
      = (false, { c3State with deadLetterScrobbles := c3State.deadLetterScrobbles.set 1 (bumpDeadRetry c3dNew (failureMessage (ScrobbleFailure.upstream false "still failing")) 77) }) ∧
    bumpDeadRetry c3dNew
        (failureMessage (ScrobbleFailure.upstream false "still failing")) 77 ∈
      (processDeadLetterScrobble c3EnvFail c3State c3dNew.id).2.deadLetterScrobbles :=
  ⟨claim_C3.1 c3EnvFail 1 c3State c3dNew (by decide),
    claim_C3.2.1 c3EnvFail 1 c3State c3dOld (by decide) (by decide) (by decide),
    claim_C3.2.2.1 c3EnvOk c3State c3dNew 1 c3dNew.play (by decide) (by decide)
      rfl (by decide) rfl rfl,
    (claim_C3.2.2.2 c3EnvFail c3State c3dNew 1
      (ScrobbleFailure.upstream false "still failing") (by decide) (by decide)
      rfl (by decide) rfl rfl).1,
    (claim_C3.2.2.2 c3EnvFail c3State c3dNew 1
      (ScrobbleFailure.upstream false "still failing") (by decide) (by decide)
      rfl (by decide) rfl rfl).2⟩
